import Mathlib

/-!
Verification of the `https-by-default` Firefox extension background script
(`src/firefox/background.js`) against its natural-language specification.

The script is shallowly embedded: strings are `String`/`List Char`, the
JavaScript `Map`s become association functions, the per-tab redirect-tracking
closures become records tagged with an allocation id (standing for JavaScript
object identity), and the event-driven control flow becomes explicit state
passing over a `MState` record with one transition function per browser event
listener.
-/

namespace HttpsByDefault

/-!
## Splitting strings on a separator

`String.prototype.split` with a one-character separator class (used with
`'.'` for domain labels, and with the whitespace class `\s` by `doParsePrefs`
on the `domains_nohttps` preference text).  Modelled on `List Char`.
-/

/-- Prepends the character `c` to the first chunk of a chunk list. -/
def consHead (c : Char) : List (List Char) → List (List Char)
  | [] => [[c]]
  | r :: rs => (c :: r) :: rs

/-- JavaScript `s.split(sep)` for a class of one-character separators given by
the predicate `p`: always returns at least one (possibly empty) chunk; a
separator ends the current chunk and starts a new one. -/
def splitP (p : Char → Bool) : List Char → List (List Char)
  | [] => [[]]
  | c :: cs => if p c then [] :: splitP p cs else consHead c (splitP p cs)

/-- `hostname.split('.')`. -/
def splitDot (s : List Char) : List (List Char) :=
  splitP (· = '.') s

/-- The inverse of `splitDot`: re-joins chunks with `'.'` between them. -/
def joinDot : List (List Char) → List Char
  | [] => []
  | [l] => l
  | l :: ls => l ++ '.' :: joinDot ls

/-- The whitespace class of the JavaScript regular expression `\s` (the
characters that can separate patterns in the `domains_nohttps` text). -/
def isJsSpace (c : Char) : Bool :=
  c = ' ' ∨ c = '\t' ∨ c = '\n' ∨ c = '\r' ∨ c = '\x0b' ∨ c = '\x0c'

/-- The domain patterns of a `domains_nohttps` preference text: the source
splits on `/\s+/` and skips falsy (empty) tokens, which yields the same list
as splitting at every whitespace character and dropping the empty chunks. -/
def tokens (text : List Char) : List (List Char) :=
  (splitP isJsSpace text).filter (· ≠ [])

/-!
## The domain suppression trie

`doParsePrefs` builds a reversed-label trie in nested JavaScript `Map`s; a
node carries the wildcard-leaf marker when `DOMAIN_WILDCARD_LEAF_SYMBOL` is a
key of the `Map`.  The symbol key can never collide with a string label, so a
node is modelled as a boolean flag plus a child lookup function.
-/

/-- A trie node: `leaf` is whether `DOMAIN_WILDCARD_LEAF_SYMBOL` is a key,
`children` is lookup by domain label (JavaScript `map.get(part)`). -/
inductive Trie where
  | node : Bool → (List Char → Option Trie) → Trie

def Trie.leaf : Trie → Bool
  | .node b _ => b

def Trie.children : Trie → (List Char → Option Trie)
  | .node _ f => f

/-- `new Map()`. -/
def Trie.empty : Trie := .node false (fun _ => none)

/-- The insertion loop of `doParsePrefs` for one domain pattern, already
split into labels (the caller passes the labels reversed, TLD first): walk or
create one node per label and mark the final node as a wildcard leaf. -/
def Trie.insert (t : Trie) : List (List Char) → Trie
  | [] => .node true t.children
  | l :: ls =>
    .node t.leaf fun l' =>
      if l' = l then some (((t.children l).getD Trie.empty).insert ls)
      else t.children l'

/-- `doParsePrefs(domains_nohttps)`: rebuild the trie from empty, inserting
each whitespace-separated pattern by its reversed label list. -/
def doParsePrefs (text : List Char) : Trie :=
  (tokens text).foldl (fun trie dom => trie.insert (splitDot dom).reverse) Trie.empty

/-- The lookup loop of `shouldRedirectToHttps` (source lines 209–218), on an
already-reversed label list: move to the child for each label; a missing
child stops the walk (not excluded); a wildcard-leaf marker on a visited
child stops it (excluded). -/
def trieLookup : Trie → List (List Char) → Bool
  | _, [] => false
  | t, l :: ls =>
    match t.children l with
    | none => false
    | some c => c.leaf || trieLookup c ls

/-- The suppression-index membership test of the spec's §4.1 contract:
`isExcluded(hostname, trie)`, exactly the lookup that the source inlines in
`shouldRedirectToHttps`. -/
def isExcluded (t : Trie) (hostname : List Char) : Bool :=
  trieLookup t (splitDot hostname).reverse

/-- Whether the trie has a wildcard-leaf marker at the end of the exact path
`q` (and the whole path exists). -/
def Trie.leafAt : Trie → List (List Char) → Bool
  | t, [] => t.leaf
  | t, l :: ls =>
    match t.children l with
    | none => false
    | some c => c.leafAt ls

/-!
## URLs

The handlers use the browser's `URL` constructor only through the getters
`protocol`, `hostname`, `pathname`, `search` and `hash`.  `parseURL` models
the WHATWG parse of a hierarchical `scheme://host/path?query#fragment` URL:
the scheme keeps its trailing colon, a missing path is normalised to `"/"`,
`search`/`hash` are empty when the query/fragment is absent or empty and
otherwise keep their `?`/`#` prefix, an IPv6 host keeps its brackets and a
port is not part of `hostname`.  A string it cannot parse is `none` (the
constructor throws). -/

structure URLRec where
  protocol : String
  hostname : String
  pathname : String
  search : String
  hash : String
  deriving DecidableEq, Repr

/-- A character allowed in a URL scheme. -/
def isSchemeChar (c : Char) : Bool :=
  c.isAlpha || c.isDigit || c = '+' || c = '-' || c = '.'

def parseURL (s : String) : Option URLRec :=
  let cs := s.toList
  let scheme := cs.takeWhile (fun c => !(c == ':'))
  match cs.dropWhile (fun c => !(c == ':')) with
  | ':' :: '/' :: '/' :: r =>
    if scheme.isEmpty || !scheme.all isSchemeChar ||
        !(match scheme with | c :: _ => c.isAlpha | [] => false) then none
    else
      let authority := r.takeWhile (fun c => !(c == '/') && !(c == '?') && !(c == '#'))
      let r2 := r.dropWhile (fun c => !(c == '/') && !(c == '?') && !(c == '#'))
      if (match authority with | '[' :: t => !(t.contains ']') | _ => false) then none
      else
        let hostname : List Char :=
          match authority with
          | '[' :: t => '[' :: t.takeWhile (fun c => !(c == ']')) ++ [']']
          | _ => authority.takeWhile (fun c => !(c == ':'))
        if hostname = [] then none
        else
          let pathname : List Char :=
            match r2 with
            | '/' :: _ => r2.takeWhile (fun c => !(c == '?') && !(c == '#'))
            | _ => ['/']
          let r3 := r2.dropWhile (fun c => !(c == '?') && !(c == '#'))
          let query : List Char :=
            match r3 with
            | '?' :: t => t.takeWhile (fun c => !(c == '#'))
            | _ => []
          let r4 : List Char :=
            match r3 with
            | '?' :: t => t.dropWhile (fun c => !(c == '#'))
            | _ => r3
          let frag : List Char :=
            match r4 with
            | '#' :: t => t
            | _ => []
          some { protocol := ⟨scheme ++ [':']⟩
                 hostname := ⟨hostname⟩
                 pathname := ⟨pathname⟩
                 search := ⟨if query = [] then [] else '?' :: query⟩
                 hash := ⟨if frag = [] then [] else '#' :: frag⟩ }
  | _ => none

/-!
## The redirect decision engine's pure functions
-/

/-- The regular expression `/^\d{1,3}\.\d{1,3}\.\d{1,3}\.\d{1,3}$/`: the
hostname is exactly four dot-separated groups of one to three digits. -/
def isIPv4Literal (hostname : List Char) : Bool :=
  match splitDot hostname with
  | [a, b, c, d] =>
    [a, b, c, d].all fun g => 1 ≤ g.length && g.length ≤ 3 && g.all Char.isDigit
  | _ => false

/-- `shouldRedirectToHttps(requestedUrl)` (source lines 185–222), with the
process-wide `prefsParsed.domains_nohttps` trie passed explicitly.  When
`new URL(requestedUrl)` would throw, the model returns `false`: the thrown
handler performs no redirect either way. -/
def shouldRedirectToHttps (domains_nohttps : Trie) (requestedUrl : String) : Bool :=
  match parseURL requestedUrl with
  | none => false
  | some u =>
    let hostname := u.hostname.toList
    if ¬ hostname.contains '.' then false
    else if ".test".toList.isSuffixOf hostname ∨ ".example".toList.isSuffixOf hostname ∨
        ".invalid".toList.isSuffixOf hostname ∨ ".localhost".toList.isSuffixOf hostname then
      false
    else if isIPv4Literal hostname ||
        ((match hostname with | '[' :: _ => true | _ => false) &&
         (match hostname.getLast? with | some ']' => true | _ => false)) then
      false
    else
      !(isExcluded domains_nohttps hostname)

/-- `isDerivedURL(currentUrl, requestedUrl)` (source lines 231–283).  In the
source only `new URL(currentUrl)` sits in a `try`; `new URL(requestedUrl)`
can no longer throw on the handler path because `shouldRedirectToHttps`
already parsed the same string, so the model's `none => false` branch for the
requested URL is unreachable from the handler. -/
def isDerivedURL (currentUrl requestedUrl : String) : Bool :=
  if currentUrl = requestedUrl then true
  else if ¬ ("http".toList.isPrefixOf currentUrl.toList) then false
  else
    match parseURL currentUrl with
    | none => false
    | some cur =>
      match parseURL requestedUrl with
      | none => false
      | some req =>
        if req.hostname = cur.hostname then true
        else if cur.protocol = "https:" then false
        else if (req.pathname.length > 1 ∨ req.search.length > 2 ∨ req.hash.length > 2)
            ∧ req.pathname = cur.pathname ∧ req.search = cur.search ∧ req.hash = cur.hash then
          true
        else false

/-- JavaScript `requestedUrl.replace(':', 's:')`: replace the first `':'`
(the one ending the `http` scheme) by `"s:"`. -/
def replaceFirstColon : List Char → List Char
  | [] => []
  | c :: cs => if c = ':' then 's' :: ':' :: cs else c :: replaceFirstColon cs

/-- The upgraded URL the handler answers with (source line 165). -/
def httpsUrl (requestedUrl : String) : String :=
  ⟨replaceFirstColon requestedUrl.toList⟩

/-!
## JavaScript value details

`details.requestId` is a number, but the script destructures the
non-existent property `requestedId` (both in the `onBeforeRequest` listener,
line 84, and in `onHeadersReceived`, line 303), so the value it works with
is `undefined`; and `redirectInfo.redirectedRequestId` starts as `null`.
`JSId` has all three shapes so the `===` comparisons can be modelled
exactly.  `JSVal` models the numeric computations of the about:blank
heuristic, where `Map.get` of a missing key is `undefined`, arithmetic on
`undefined` is `NaN`, and `NaN < x` is `false`.
-/

inductive JSId where
  | null
  | undefined
  | id (n : Nat)
  deriving DecidableEq, Repr

inductive JSVal where
  | num (n : Int)
  | nan
  | undefined
  deriving DecidableEq, Repr

/-- A JavaScript `Map.get` result: the value, or `undefined` for a missing
key. -/
def jsOfOpt : Option Int → JSVal
  | some n => .num n
  | none => .undefined

/-- JavaScript subtraction: `undefined` (and `NaN`) make the result `NaN`. -/
def jsSub : JSVal → JSVal → JSVal
  | .num a, .num b => .num (a - b)
  | _, _ => .nan

/-- JavaScript `<`: any comparison against `NaN` is `false`. -/
def jsLt : JSVal → JSVal → Bool
  | .num a, .num b => a < b
  | _, _ => false

/-- `tabId === undefined` for the numeric `details.tabId`: a number is never
strictly equal to `undefined`. -/
def jsNumEqUndef (_ : Int) : Bool := false

/-!
## The event interface records (spec §6)
-/

/-- The `onBeforeRequest` details: `{ tabId, url, requestId, originUrl?,
timeStamp }`. -/
structure Details where
  tabId : Int
  url : String
  requestId : Nat
  originUrl : Option String
  timeStamp : Int
  deriving DecidableEq, Repr

/-- The slice of a `tabs.Tab` the script reads. -/
structure Tab where
  url : String
  lastAccessed : Int
  status : String
  deriving DecidableEq, Repr

/-- The `onHeadersReceived` details the script destructures (it asks for
`requestedId`, which is not among these fields). -/
structure HeaderDetails where
  requestId : Nat
  statusCode : Int
  deriving DecidableEq, Repr

/-!
## Redirect-tracking state

Each call of `registerRedirectInfo` allocates a fresh `redirectInfo` object
and three closures over it.  The allocation id `iid` stands for JavaScript
object identity (the `tabPendingRedirectInfos.get(tabId) !== redirectInfo`
comparison) and names the closures in the listener lists.
-/

structure RedirectInfo where
  iid : Nat
  tabId : Int
  url : String
  redirectedRequestId : JSId
  deriving DecidableEq, Repr

/-- The process-wide mutable state of `background.js`. -/
structure MState where
  /-- `prefsParsed.domains_nohttps`. -/
  domains_nohttps : Trie
  /-- The next allocation id for a `redirectInfo` object. -/
  nextIid : Nat
  /-- `tabCreationTimes`. -/
  tabCreationTimes : Int → Option Int
  /-- `tabActivatedTimes`. -/
  tabActivatedTimes : Int → Option Int
  /-- The live `redirectInfo` objects, by allocation id (closures keep an
  object alive even after it leaves the registry). -/
  infos : Nat → Option RedirectInfo
  /-- `tabPendingRedirectInfos`: tab id to the identity of its entry. -/
  tabPendingRedirectInfos : Int → Option Nat
  /-- Instances whose `onHeadersReceived` closure is registered. -/
  hrListeners : List Nat
  /-- Instances whose `unregister` closure is on `onResponseStarted`. -/
  rsListeners : List Nat
  /-- Instances whose `unregister` closure is on `onErrorOccurred` (with
  filter `urls: [requestedUrl]`). -/
  errListeners : List Nat

def initialState : MState where
  domains_nohttps := Trie.empty
  nextIid := 0
  tabCreationTimes := fun _ => none
  tabActivatedTimes := fun _ => none
  infos := fun _ => none
  tabPendingRedirectInfos := fun _ => none
  hrListeners := []
  rsListeners := []
  errListeners := []

/-- The `unregister` closure of one tracking instance (source lines
296–301): removes that instance's three listeners and deletes the tab's
registry entry — unconditionally, whatever instance the entry currently
holds. -/
def unregister (st : MState) (info : RedirectInfo) : MState :=
  { st with
    hrListeners := st.hrListeners.erase info.iid
    rsListeners := st.rsListeners.erase info.iid
    errListeners := st.errListeners.erase info.iid
    tabPendingRedirectInfos := fun t =>
      if t = info.tabId then none else st.tabPendingRedirectInfos t }

/-- `unregisterRedirectInfo(tabId)` (source lines 353–359). -/
def unregisterRedirectInfo (st : MState) (tabId : Int) : MState :=
  match st.tabPendingRedirectInfos tabId with
  | none => st
  | some iid =>
    match st.infos iid with
    | none => st
    | some info =>
      let st1 := unregister st info
      { st1 with tabPendingRedirectInfos := fun t =>
          if t = tabId then none else st1.tabPendingRedirectInfos t }

/-- `statusCode !== 301 && … && statusCode !== 308` negated: the redirect
statuses the `onHeadersReceived` closure keeps tracking. -/
def isRedirectStatusCode (s : Int) : Bool :=
  s == 301 || s == 302 || s == 303 || s == 307 || s == 308

/-- The `onHeadersReceived` closure of instance `iid` (source lines
303–328), dispatched with the event details.  A queued `webRequest` event
can still be dispatched after `removeListener` (the situation the source's
identity guard addresses), so dispatch is modelled for any live instance. -/
def onHeadersReceived (st : MState) (iid : Nat) (ev : HeaderDetails) : MState :=
  match st.infos iid with
  | none => st
  | some info =>
    if ¬ isRedirectStatusCode ev.statusCode then unregister st info
    else if st.tabPendingRedirectInfos info.tabId ≠ some iid then st
    -- `redirectInfo.redirectedRequestId = requestedId;` — the closure
    -- destructured `requestedId`, which is not a field of the event details
    -- (the id is under `requestId`), so it records `undefined`.  Then
    -- `onResponseStarted.addListener(unregister, …)`; `addListener` does not
    -- register the same function twice.
    else if iid ∈ st.rsListeners then
      { st with infos := (fun j =>
          if j = iid then some { info with redirectedRequestId := JSId.undefined }
          else st.infos j) }
    else
      { st with
        infos := (fun j =>
          if j = iid then some { info with redirectedRequestId := JSId.undefined }
          else st.infos j)
        rsListeners := iid :: st.rsListeners }

/-- `registerRedirectInfo(tabId, requestedUrl)` (source lines 290–351):
allocate the `redirectInfo` object, drop any previous instance for the tab,
register `onHeadersReceived` and the error-filtered `unregister`, and store
the object in the registry. -/
def registerRedirectInfo (st : MState) (tabId : Int) (requestedUrl : String) : MState :=
  let iid := st.nextIid
  let info : RedirectInfo :=
    { iid := iid, tabId := tabId, url := requestedUrl, redirectedRequestId := JSId.null }
  let st1 := { st with
    nextIid := iid + 1
    infos := fun j => if j = iid then some info else st.infos j }
  let st2 := unregisterRedirectInfo st1 tabId
  let st3 := { st2 with hrListeners := iid :: st2.hrListeners }
  let st4 := { st3 with errListeners := iid :: st3.errListeners }
  { st4 with tabPendingRedirectInfos := fun t =>
      if t = tabId then some iid else st4.tabPendingRedirectInfos t }

/-- Dispatch of a tab's `onResponseStarted` event to the registered
`unregister` closure of instance `iid`. -/
def onResponseStarted (st : MState) (iid : Nat) : MState :=
  match st.infos iid with
  | none => st
  | some info => if iid ∈ st.rsListeners then unregister st info else st

/-- Dispatch of an `onErrorOccurred` event with URL `url`: the `unregister`
closure of instance `iid` runs only if it is registered and the event URL
matches its exact-URL filter `urls: [requestedUrl]`. -/
def onErrorOccurred (st : MState) (iid : Nat) (url : String) : MState :=
  match st.infos iid with
  | none => st
  | some info =>
    if iid ∈ st.errListeners ∧ url = info.url then unregister st info else st

/-- `tabs.onCreated` (source lines 37–44): `if (tab.id)` skips a falsy id. -/
def onTabCreated (st : MState) (tabId : Int) (active : Bool) (now : Int) : MState :=
  if tabId = 0 then st
  else
    let st1 := { st with tabCreationTimes := fun t =>
        if t = tabId then some now else st.tabCreationTimes t }
    if active then
      { st1 with tabActivatedTimes := fun t =>
          if t = tabId then some now else st1.tabActivatedTimes t }
    else st1

/-- `tabs.onActivated` (source lines 45–47). -/
def onTabActivated (st : MState) (tabId : Int) (now : Int) : MState :=
  { st with tabActivatedTimes := fun t =>
      if t = tabId then some now else st.tabActivatedTimes t }

/-- `tabs.onRemoved` (source lines 48–52). -/
def onTabRemoved (st : MState) (tabId : Int) : MState :=
  let st1 := { st with
    tabCreationTimes := fun t => if t = tabId then none else st.tabCreationTimes t
    tabActivatedTimes := fun t => if t = tabId then none else st.tabActivatedTimes t }
  unregisterRedirectInfo st1 tabId

/-- One tab of the start-up `tabs.query({})` enumeration (source lines
53–64): `tab.lastAccessed || Date.now()` falls back on a falsy (absent or
zero) last-access time. -/
def bootstrapTab (st : MState) (tabId : Int) (lastAccessed : Option Int)
    (active : Bool) (now : Int) : MState :=
  let created := match lastAccessed with
    | some n => if n = 0 then now else n
    | none => now
  { st with
    tabCreationTimes := fun t => if t = tabId then some created else st.tabCreationTimes t
    tabActivatedTimes := fun t =>
      if t = tabId then some (if active then now else 0) else st.tabActivatedTimes t }

/-- The about:blank placeholder heuristic (source lines 109–139), for a
resolved current tab whose URL is `about:blank`; `true` means the handler
returns early without upgrading.  `jsNumEqUndef` is the source's
`if (tabId === undefined)` (line 117), which was presumably meant to test
`tabActivatedTime === undefined` but never holds, so the fallback to
`currentTab.lastAccessed` never executes and a missing activation time flows
into the subtraction as `undefined`, making the 1-second comparison `NaN <
1000`, i.e. `false`. -/
def aboutBlankVeto (st : MState) (details : Details) (currentTab : Tab) : Bool :=
  match st.tabCreationTimes details.tabId with
  | none => true
  | some _ =>
    let tabActivatedTime := jsOfOpt (st.tabActivatedTimes details.tabId)
    let tabActivatedTime :=
      if jsNumEqUndef details.tabId then JSVal.num currentTab.lastAccessed
      else tabActivatedTime
    if jsLt (jsSub (.num details.timeStamp) tabActivatedTime) (.num 1000) then true
    else jsLt (jsSub (.num details.timeStamp)
      (jsOfOpt (st.tabCreationTimes details.tabId))) (.num 300)

/-- The blocking `webRequest.onBeforeRequest` listener (source lines
66–177).  The returned option is the answer: `some u` redirects to `u`,
`none` proceeds unmodified.  `currentTab` is the outcome of the bounded
`tabs.get` polling loop, supplied by the environment (`none` when the tab
never resolved within the 200 ms window). -/
def onBeforeRequest (st : MState) (details : Details) (currentTab : Option Tab) :
    MState × Option String :=
  if details.originUrl.isSome then (st, none)
  else if details.tabId = -1 then (st, none)
  -- `let {tabId, url: requestedUrl, requestedId} = details;` — the details
  -- object carries the id under `requestId`; the destructured property
  -- `requestedId` does not exist, so its value is `undefined` (`JSId.undefined`
  -- stands below wherever the source reads `requestedId`).
  else if ¬ shouldRedirectToHttps st.domains_nohttps details.url then (st, none)
  else if (match currentTab with
           | some ct => ct.url == "about:blank" && aboutBlankVeto st details ct
           | none => false) then (st, none)
  else if (match currentTab with
           | some ct => isDerivedURL ct.url details.url
           | none => false) then (st, none)
  else if (st.tabCreationTimes details.tabId).isSome &&
      (match (st.tabPendingRedirectInfos details.tabId).bind st.infos with
       | some info => info.redirectedRequestId == JSId.undefined
       | none => false) then (st, none)
  else if (st.tabCreationTimes details.tabId).isSome &&
      (match (st.tabPendingRedirectInfos details.tabId).bind st.infos with
       | some info => info.url == details.url
       | none => false) &&
      (match currentTab with
       | some ct => ct.status == "loading"
       | none => false) then (st, none)
  -- `let httpsUrl = requestedUrl.replace(':', 's:');` is the answer on both
  -- remaining paths; they differ only in whether the tab gets armed.
  else if (st.tabCreationTimes details.tabId).isSome then
    (registerRedirectInfo st details.tabId details.url, some (httpsUrl details.url))
  else (st, some (httpsUrl details.url))

/-!
## The event system
-/

inductive Event where
  | tabCreated (tabId : Int) (active : Bool) (now : Int)
  | tabActivated (tabId : Int) (now : Int)
  | tabRemoved (tabId : Int)
  | bootstrapTab (tabId : Int) (lastAccessed : Option Int) (active : Bool) (now : Int)
  | beforeRequest (details : Details) (currentTab : Option Tab)
  | headersReceived (iid : Nat) (ev : HeaderDetails)
  | responseStarted (iid : Nat)
  | errorOccurred (iid : Nat) (url : String)
  | prefsChanged (newValue : String)

def step (st : MState) : Event → MState
  | .tabCreated tabId active now => onTabCreated st tabId active now
  | .tabActivated tabId now => onTabActivated st tabId now
  | .tabRemoved tabId => onTabRemoved st tabId
  | .bootstrapTab tabId lastAccessed active now => bootstrapTab st tabId lastAccessed active now
  | .beforeRequest details currentTab => (onBeforeRequest st details currentTab).1
  | .headersReceived iid ev => onHeadersReceived st iid ev
  | .responseStarted iid => onResponseStarted st iid
  | .errorOccurred iid url => onErrorOccurred st iid url
  | .prefsChanged newValue => { st with domains_nohttps := doParsePrefs newValue.toList }

/-- The states the process can be in: everything the event handlers can
build from the initial state. -/
inductive Reachable : MState → Prop where
  | init : Reachable initialState
  | step (st : MState) (e : Event) : Reachable st → Reachable (step st e)

/-!
## Comparison definitions and distinguished states
-/

/-- The intended about:blank heuristic, written from the spec's words for
comparison with the source's `aboutBlankVeto` (spec §4.2 step 5 and the §9
open question): "If no creation time is recorded, do not upgrade.
Otherwise: if the time since the tab's last activation is under 1 second
[falling back to the tab's last-accessed timestamp when no activation time
was recorded], treat this as a restored/resumed session and do not upgrade;
else if the time since the tab's creation is under 300ms … do not
upgrade." -/
def aboutBlankVetoIntended (st : MState) (details : Details) (currentTab : Tab) : Bool :=
  match st.tabCreationTimes details.tabId with
  | none => true
  | some created =>
    let activated :=
      match st.tabActivatedTimes details.tabId with
      | some a => a
      | none => currentTab.lastAccessed
    if details.timeStamp - activated < 1000 then true
    else decide (details.timeStamp - created < 300)

/-- Every tab with a live registry entry has a recorded creation time, and
the entry's instance object exists. -/
def PendingInv (st : MState) : Prop :=
  ∀ t iid, st.tabPendingRedirectInfos t = some iid →
    (st.tabCreationTimes t).isSome = true ∧ (st.infos iid).isSome = true

/-- A process that observed one tab, id 1, created active at time 0. -/
def stTab1 : MState := step initialState (.tabCreated 1 true 0)

/-- A process that observed one tab, id 1, created inactive at time 0 (so
no activation time is on record for it). -/
def stInactiveTab : MState := step initialState (.tabCreated 1 false 0)

/-- A resolved current tab showing the about:blank placeholder. -/
def tabBlank : Tab := { url := "about:blank", lastAccessed := 0, status := "loading" }

/-- A resolved current tab on an internal page: not the placeholder, and no
URL is ever "derived" from a non-web scheme. -/
def tabRobots : Tab := { url := "about:robots", lastAccessed := 0, status := "complete" }

/-- An originless plaintext navigation on tab 1, request id 5. -/
def reqA : Details :=
  { tabId := 1, url := "http://example.com/", requestId := 5, originUrl := none
    timeStamp := 1000 }

/-- `stTab1` after `reqA` was intercepted and upgraded: instance 0 is armed
for tab 1. -/
def stArmed : MState := (onBeforeRequest stTab1 reqA (some tabRobots)).1

/-- `stArmed` after instance 0's header event reported a 302 with request
id 5. -/
def stRedirObserved : MState :=
  onHeadersReceived stArmed 0 { requestId := 5, statusCode := 302 }

/-- `stArmed` after a second interception of `reqA` superseded instance 0
with instance 1. -/
def stTwoArmed : MState := (onBeforeRequest stArmed reqA (some tabRobots)).1

/-!
## Theorems
-/

theorem splitP_ne_nil (p : Char → Bool) (s : List Char) : splitP p s ≠ [] := by
  induction s with
  | nil => simp [splitP]
  | cons c cs ih =>
    simp only [splitP]
    split
    · simp
    · cases h : splitP p cs with
      | nil => simp [consHead]
      | cons r rs => simp [consHead]

theorem splitDot_ne_nil (s : List Char) : splitDot s ≠ [] :=
  splitP_ne_nil _ s

theorem splitDot_nil : splitDot [] = [[]] := rfl

theorem splitDot_cons_dot (cs : List Char) :
    splitDot ('.' :: cs) = [] :: splitDot cs := by
  simp [splitDot, splitP]

theorem splitDot_cons_ne (c : Char) (cs : List Char) (hc : c ≠ '.') :
    splitDot (c :: cs) = consHead c (splitDot cs) := by
  simp [splitDot, splitP, hc]

theorem joinDot_cons_of_ne_nil (l : List Char) (ls : List (List Char))
    (h : ls ≠ []) : joinDot (l :: ls) = l ++ '.' :: joinDot ls := by
  cases ls with
  | nil => exact absurd rfl h
  | cons m ms => rfl

theorem joinDot_consHead (c : Char) (ls : List (List Char)) :
    joinDot (consHead c ls) = c :: joinDot ls := by
  cases ls with
  | nil => rfl
  | cons r rs =>
    cases rs with
    | nil => rfl
    | cons t ts =>
      rw [consHead, joinDot_cons_of_ne_nil (c :: r) (t :: ts) (by simp),
        joinDot_cons_of_ne_nil r (t :: ts) (by simp)]
      simp

theorem joinDot_splitDot (s : List Char) : joinDot (splitDot s) = s := by
  induction s with
  | nil => rfl
  | cons c cs ih =>
    by_cases hc : c = '.'
    · subst hc
      rw [splitDot_cons_dot, joinDot_cons_of_ne_nil _ _ (splitDot_ne_nil cs), ih]
      rfl
    · rw [splitDot_cons_ne c cs hc, joinDot_consHead, ih]

theorem consHead_append (c : Char) (a b : List (List Char)) (ha : a ≠ []) :
    consHead c (a ++ b) = consHead c a ++ b := by
  cases a with
  | nil => exact absurd rfl ha
  | cons r rs => rfl

theorem splitDot_append_dot (a b : List Char) :
    splitDot (a ++ '.' :: b) = splitDot a ++ splitDot b := by
  induction a with
  | nil => rw [List.nil_append, splitDot_cons_dot, splitDot_nil]; rfl
  | cons c cs ih =>
    by_cases hc : c = '.'
    · subst hc
      rw [List.cons_append, splitDot_cons_dot, splitDot_cons_dot, ih]
      rfl
    · rw [List.cons_append, splitDot_cons_ne c _ hc, splitDot_cons_ne c cs hc, ih,
        consHead_append c _ _ (splitDot_ne_nil cs)]

theorem joinDot_append (a b : List (List Char)) (ha : a ≠ []) (hb : b ≠ []) :
    joinDot (a ++ b) = joinDot a ++ '.' :: joinDot b := by
  induction a with
  | nil => exact absurd rfl ha
  | cons l ls ih =>
    cases ls with
    | nil =>
      rw [List.singleton_append, joinDot_cons_of_ne_nil _ _ hb]
      rfl
    | cons m ms =>
      rw [List.cons_append, joinDot_cons_of_ne_nil _ _ (by simp),
        joinDot_cons_of_ne_nil _ _ (by simp), ih (by simp)]
      simp

/-- The chunk lists produced by `splitDot` relate label suffixes to string
suffixes: pattern `p`'s labels are a suffix of hostname `h`'s labels iff `p`
equals `h` or `h` ends in `"." ++ p`. -/
theorem splitDot_suffix_iff (p h : List Char) :
    splitDot p <:+ splitDot h ↔ p = h ∨ ('.' :: p) <:+ h := by
  constructor
  · rintro ⟨pre, hpre⟩
    cases pre with
    | nil =>
      left
      have h1 : splitDot p = splitDot h := by simpa using hpre
      have h2 := joinDot_splitDot p
      rw [h1, joinDot_splitDot] at h2
      exact h2.symm
    | cons q qs =>
      right
      have hj := joinDot_splitDot h
      rw [← hpre, joinDot_append _ _ (by simp) (splitDot_ne_nil p),
        joinDot_splitDot] at hj
      exact ⟨joinDot (q :: qs), hj⟩
  · rintro (rfl | ⟨x, hx⟩)
    · exact List.suffix_refl _
    · rw [← hx, splitDot_append_dot]
      exact List.suffix_append _ _

theorem Trie.leaf_node (b : Bool) (f : List Char → Option Trie) :
    (Trie.node b f).leaf = b := rfl

theorem Trie.children_node (b : Bool) (f : List Char → Option Trie) :
    (Trie.node b f).children = f := rfl

theorem trieLookup_iff_leafAt (t : Trie) (ls : List (List Char)) :
    trieLookup t ls = true ↔ ∃ pre, pre ≠ [] ∧ pre <+: ls ∧ t.leafAt pre = true := by
  induction ls generalizing t with
  | nil =>
    simp only [trieLookup]
    constructor
    · intro h
      exact absurd h (by simp)
    · rintro ⟨pre, hne, hpre, -⟩
      exact absurd (List.prefix_nil.mp hpre) hne
  | cons l ls ih =>
    simp only [trieLookup]
    cases hc : t.children l with
    | none =>
      constructor
      · intro h
        exact absurd h (by simp)
      · rintro ⟨pre, hne, hpre, hleaf⟩
        cases pre with
        | nil => exact absurd rfl hne
        | cons m ms =>
          obtain ⟨rfl, -⟩ := List.cons_prefix_cons.mp hpre
          simp [Trie.leafAt, hc] at hleaf
    | some c =>
      rw [Bool.or_eq_true, ih]
      constructor
      · rintro (hl | ⟨pre, hne, hpre, hleaf⟩)
        · exact ⟨[l], by simp, by simp, by simp [Trie.leafAt, hc, hl]⟩
        · exact ⟨l :: pre, by simp, List.cons_prefix_cons.mpr ⟨rfl, hpre⟩,
            by simpa [Trie.leafAt, hc] using hleaf⟩
      · rintro ⟨pre, hne, hpre, hleaf⟩
        cases pre with
        | nil => exact absurd rfl hne
        | cons m ms =>
          obtain ⟨rfl, hms⟩ := List.cons_prefix_cons.mp hpre
          simp only [Trie.leafAt, hc] at hleaf
          cases ms with
          | nil => exact Or.inl (by simpa [Trie.leafAt] using hleaf)
          | cons x xs => exact Or.inr ⟨x :: xs, by simp, hms, hleaf⟩

theorem Trie.leafAt_empty (r : List (List Char)) : Trie.empty.leafAt r = false := by
  cases r with
  | nil => rfl
  | cons m ms => simp [Trie.leafAt, Trie.empty, Trie.children]

theorem leafAt_insert (t : Trie) (q r : List (List Char)) :
    (t.insert q).leafAt r = true ↔ (r = q ∨ t.leafAt r = true) := by
  induction q generalizing t r with
  | nil =>
    cases t with
    | node b f =>
      cases r with
      | nil => simp [Trie.insert, Trie.leafAt, Trie.leaf]
      | cons m ms =>
        simp [Trie.insert, Trie.leafAt, Trie.children, Trie.children_node]
  | cons l ls ih =>
    cases t with
    | node b f =>
      cases r with
      | nil => simp [Trie.insert, Trie.leafAt, Trie.leaf]
      | cons m ms =>
        by_cases hm : m = l
        · subst hm
          rw [show ((Trie.node b f).insert (m :: ls)).leafAt (m :: ms) =
              (((f m).getD Trie.empty).insert ls).leafAt ms by
            simp [Trie.insert, Trie.leafAt, Trie.children, Trie.leaf]]
          rw [ih]
          cases hc : f m with
          | none =>
            simp only [Option.getD_none]
            constructor
            · rintro (rfl | habs)
              · exact Or.inl rfl
              · rw [Trie.leafAt_empty] at habs
                exact absurd habs (by simp)
            · rintro (hms | habs)
              · exact Or.inl (by injection hms)
              · simp [Trie.leafAt, Trie.children, hc] at habs
          | some c =>
            simp only [Option.getD_some]
            simp [Trie.leafAt, Trie.children, hc]
        · rw [show ((Trie.node b f).insert (l :: ls)).leafAt (m :: ms) =
              ((Trie.node b f).leafAt (m :: ms)) by
            simp [Trie.insert, Trie.leafAt, Trie.children, hm]]
          constructor
          · exact fun h => Or.inr h
          · rintro (h | h)
            · exact absurd (List.cons.inj h).1 hm
            · exact h

theorem leafAt_foldl_insert (toks : List (List Char)) (t : Trie)
    (r : List (List Char)) :
    (toks.foldl (fun trie dom => trie.insert (splitDot dom).reverse) t).leafAt r = true ↔
      (∃ p ∈ toks, (splitDot p).reverse = r) ∨ t.leafAt r = true := by
  induction toks generalizing t with
  | nil => simp
  | cons p ps ih =>
    simp only [List.foldl_cons]
    rw [ih, leafAt_insert]
    constructor
    · rintro (⟨x, hx, hr⟩ | (rfl | h))
      · exact Or.inl ⟨x, by simp [hx], hr⟩
      · exact Or.inl ⟨p, by simp, rfl⟩
      · exact Or.inr h
    · rintro (⟨x, hx, hr⟩ | h)
      · rcases List.mem_cons.mp hx with rfl | hx
        · exact Or.inr (Or.inl hr.symm)
        · exact Or.inl ⟨x, hx, hr⟩
      · exact Or.inr (Or.inr h)

/-- The exclusion behaviour of the built suppression index, in terms of the
pattern tokens of the preference text: a hostname is excluded iff some token
equals it, or is a proper dot-boundary suffix of it. -/
theorem isExcluded_doParsePrefs (text hostname : List Char) :
    isExcluded (doParsePrefs text) hostname = true ↔
      ∃ p ∈ tokens text, p = hostname ∨ ('.' :: p) <:+ hostname := by
  rw [isExcluded, doParsePrefs, trieLookup_iff_leafAt]
  constructor
  · rintro ⟨pre, hne, hpre, hleaf⟩
    rw [leafAt_foldl_insert] at hleaf
    rcases hleaf with ⟨p, hp, hr⟩ | habs
    · refine ⟨p, hp, ?_⟩
      rw [← splitDot_suffix_iff]
      rw [← hr] at hpre
      exact List.reverse_prefix.mp hpre
    · rw [Trie.leafAt_empty] at habs
      exact absurd habs (by simp)
  · rintro ⟨p, hp, hsuf⟩
    rw [← splitDot_suffix_iff] at hsuf
    refine ⟨(splitDot p).reverse, by simpa using splitDot_ne_nil p, ?_, ?_⟩
    · exact List.reverse_prefix.mpr hsuf
    · rw [leafAt_foldl_insert]
      exact Or.inl ⟨p, hp, rfl⟩

/-!
## Structural lemmas about the tracking handlers
-/

theorem pending_unregister_mono (st : MState) (info : RedirectInfo) (t : Int) (j : Nat)
    (h : (unregister st info).tabPendingRedirectInfos t = some j) :
    st.tabPendingRedirectInfos t = some j := by
  by_cases ht : t = info.tabId
  · simp [unregister, ht] at h
  · simpa [unregister, ht] using h

theorem tabCreationTimes_unregisterRedirectInfo (st : MState) (tabId : Int) :
    (unregisterRedirectInfo st tabId).tabCreationTimes = st.tabCreationTimes := by
  unfold unregisterRedirectInfo
  split
  · rfl
  · split
    · rfl
    · rfl

theorem infos_unregisterRedirectInfo (st : MState) (tabId : Int) :
    (unregisterRedirectInfo st tabId).infos = st.infos := by
  unfold unregisterRedirectInfo
  split
  · rfl
  · split
    · rfl
    · rfl

theorem pending_unregisterRedirectInfo_mono (st : MState) (tabId t : Int) (j : Nat)
    (h : (unregisterRedirectInfo st tabId).tabPendingRedirectInfos t = some j) :
    st.tabPendingRedirectInfos t = some j := by
  unfold unregisterRedirectInfo at h
  split at h
  · exact h
  · split at h
    · exact h
    · by_cases ht : t = tabId
      · simp [ht] at h
      · rw [show ({ unregister st _ with tabPendingRedirectInfos := fun t' =>
            if t' = tabId then none
            else (unregister st _).tabPendingRedirectInfos t' } : MState).tabPendingRedirectInfos t =
            if t = tabId then none else (unregister st _).tabPendingRedirectInfos t from rfl,
          if_neg ht] at h
        exact pending_unregister_mono _ _ _ _ h

theorem pending_unregisterRedirectInfo_self_none (st : MState) (tabId : Int) (j : Nat)
    (h : (unregisterRedirectInfo st tabId).tabPendingRedirectInfos tabId = some j) :
    st.infos j = none := by
  unfold unregisterRedirectInfo at h
  split at h
  · rename_i heq
    rw [heq] at h
    cases h
  · rename_i iid heq1
    split at h
    · rename_i heq2
      rw [heq1] at h
      rw [← Option.some.inj h]
      exact heq2
    · rename_i info heq2
      simp at h

theorem hrListeners_unregisterRedirectInfo_subset (st : MState) (tabId : Int) :
    (unregisterRedirectInfo st tabId).hrListeners ⊆ st.hrListeners := by
  unfold unregisterRedirectInfo
  split
  · exact fun a h => h
  · split
    · exact fun a h => h
    · exact fun a h => List.mem_of_mem_erase h

theorem rsListeners_unregisterRedirectInfo_subset (st : MState) (tabId : Int) :
    (unregisterRedirectInfo st tabId).rsListeners ⊆ st.rsListeners := by
  unfold unregisterRedirectInfo
  split
  · exact fun a h => h
  · split
    · exact fun a h => h
    · exact fun a h => List.mem_of_mem_erase h

theorem errListeners_unregisterRedirectInfo_subset (st : MState) (tabId : Int) :
    (unregisterRedirectInfo st tabId).errListeners ⊆ st.errListeners := by
  unfold unregisterRedirectInfo
  split
  · exact fun a h => h
  · split
    · exact fun a h => h
    · exact fun a h => List.mem_of_mem_erase h

theorem tabCreationTimes_registerRedirectInfo (st : MState) (tabId : Int) (url : String) :
    (registerRedirectInfo st tabId url).tabCreationTimes = st.tabCreationTimes := by
  show (unregisterRedirectInfo { st with
      nextIid := st.nextIid + 1
      infos := fun j => if j = st.nextIid
        then some { iid := st.nextIid, tabId := tabId, url := url
                    redirectedRequestId := JSId.null }
        else st.infos j } tabId).tabCreationTimes = st.tabCreationTimes
  rw [tabCreationTimes_unregisterRedirectInfo]

theorem infos_registerRedirectInfo (st : MState) (tabId : Int) (url : String) :
    (registerRedirectInfo st tabId url).infos = fun j =>
      if j = st.nextIid
      then some { iid := st.nextIid, tabId := tabId, url := url
                  redirectedRequestId := JSId.null }
      else st.infos j := by
  show (unregisterRedirectInfo { st with
      nextIid := st.nextIid + 1
      infos := fun j => if j = st.nextIid
        then some { iid := st.nextIid, tabId := tabId, url := url
                    redirectedRequestId := JSId.null }
        else st.infos j } tabId).infos = _
  rw [infos_unregisterRedirectInfo]

theorem pending_registerRedirectInfo_self (st : MState) (tabId : Int) (url : String) :
    (registerRedirectInfo st tabId url).tabPendingRedirectInfos tabId = some st.nextIid := by
  show (if tabId = tabId then some st.nextIid else _) = some st.nextIid
  rw [if_pos rfl]

theorem pending_registerRedirectInfo_mono (st : MState) (tabId : Int) (url : String)
    (t : Int) (j : Nat) (ht : t ≠ tabId)
    (h : (registerRedirectInfo st tabId url).tabPendingRedirectInfos t = some j) :
    st.tabPendingRedirectInfos t = some j := by
  rw [show (registerRedirectInfo st tabId url).tabPendingRedirectInfos t =
      (if t = tabId then some st.nextIid
       else (unregisterRedirectInfo { st with
          nextIid := st.nextIid + 1
          infos := fun j' => if j' = st.nextIid
            then some { iid := st.nextIid, tabId := tabId, url := url
                        redirectedRequestId := JSId.null }
            else st.infos j' } tabId).tabPendingRedirectInfos t) from rfl,
    if_neg ht] at h
  exact pending_unregisterRedirectInfo_mono { st with
    nextIid := st.nextIid + 1
    infos := fun j' => if j' = st.nextIid
      then some { iid := st.nextIid, tabId := tabId, url := url
                  redirectedRequestId := JSId.null }
      else st.infos j' } tabId t j h

theorem hrListeners_registerRedirectInfo (st : MState) (tabId : Int) (url : String) :
    ∃ L, (registerRedirectInfo st tabId url).hrListeners = st.nextIid :: L
      ∧ L ⊆ st.hrListeners :=
  ⟨_, rfl, hrListeners_unregisterRedirectInfo_subset _ _⟩

theorem errListeners_registerRedirectInfo (st : MState) (tabId : Int) (url : String) :
    ∃ L, (registerRedirectInfo st tabId url).errListeners = st.nextIid :: L
      ∧ L ⊆ st.errListeners :=
  ⟨_, rfl, errListeners_unregisterRedirectInfo_subset _ _⟩

theorem rsListeners_registerRedirectInfo_subset (st : MState) (tabId : Int) (url : String) :
    (registerRedirectInfo st tabId url).rsListeners ⊆ st.rsListeners :=
  rsListeners_unregisterRedirectInfo_subset _ _

/-!
## The pending-has-creation invariant
-/

theorem pendingInv_unregister (st : MState) (info : RedirectInfo)
    (hInv : PendingInv st) : PendingInv (unregister st info) := by
  intro t j hp
  obtain ⟨h1, h2⟩ := hInv t j (pending_unregister_mono st info t j hp)
  exact ⟨h1, h2⟩

theorem pendingInv_unregisterRedirectInfo (st : MState) (tabId : Int)
    (hInv : PendingInv st) : PendingInv (unregisterRedirectInfo st tabId) := by
  intro t j hp
  obtain ⟨h1, h2⟩ := hInv t j (pending_unregisterRedirectInfo_mono st tabId t j hp)
  rw [tabCreationTimes_unregisterRedirectInfo, infos_unregisterRedirectInfo]
  exact ⟨h1, h2⟩

theorem pendingInv_registerRedirectInfo (st : MState) (tabId : Int) (url : String)
    (hInv : PendingInv st) (hc : (st.tabCreationTimes tabId).isSome = true) :
    PendingInv (registerRedirectInfo st tabId url) := by
  intro t j hp
  rw [tabCreationTimes_registerRedirectInfo, infos_registerRedirectInfo]
  by_cases ht : t = tabId
  · subst ht
    rw [pending_registerRedirectInfo_self] at hp
    obtain rfl : st.nextIid = j := Option.some.inj hp
    exact ⟨hc, by simp⟩
  · obtain ⟨h1, h2⟩ := hInv t j (pending_registerRedirectInfo_mono st tabId url t j ht hp)
    refine ⟨h1, ?_⟩
    by_cases hj : j = st.nextIid
    · simp [hj]
    · simpa [hj] using h2

theorem pendingInv_onHeadersReceived (st : MState) (iid : Nat) (ev : HeaderDetails)
    (hInv : PendingInv st) : PendingInv (onHeadersReceived st iid ev) := by
  unfold onHeadersReceived
  split
  · exact hInv
  · rename_i info hinfo
    split
    · exact pendingInv_unregister st info hInv
    · split
      · exact hInv
      · split
        · intro t j hp
          obtain ⟨h1, h2⟩ := hInv t j hp
          refine ⟨h1, ?_⟩
          by_cases hj : j = iid
          · simp [hj]
          · simpa [hj] using h2
        · intro t j hp
          obtain ⟨h1, h2⟩ := hInv t j hp
          refine ⟨h1, ?_⟩
          by_cases hj : j = iid
          · simp [hj]
          · simpa [hj] using h2

theorem pendingInv_onResponseStarted (st : MState) (iid : Nat)
    (hInv : PendingInv st) : PendingInv (onResponseStarted st iid) := by
  unfold onResponseStarted
  split
  · exact hInv
  case _ info hinfo =>
    split
    · exact pendingInv_unregister st info hInv
    · exact hInv

theorem pendingInv_onErrorOccurred (st : MState) (iid : Nat) (url : String)
    (hInv : PendingInv st) : PendingInv (onErrorOccurred st iid url) := by
  unfold onErrorOccurred
  split
  · exact hInv
  case _ info hinfo =>
    split
    · exact pendingInv_unregister st info hInv
    · exact hInv

theorem pendingInv_onTabCreated (st : MState) (tabId : Int) (active : Bool) (now : Int)
    (hInv : PendingInv st) : PendingInv (onTabCreated st tabId active now) := by
  intro t j hp
  unfold onTabCreated at hp ⊢
  by_cases h0 : tabId = 0
  · rw [if_pos h0] at hp ⊢
    exact hInv t j hp
  · rw [if_neg h0] at hp ⊢
    cases active with
    | false =>
      simp only [Bool.false_eq_true, if_false] at hp ⊢
      obtain ⟨h1, h2⟩ := hInv t j hp
      refine ⟨?_, h2⟩
      by_cases ht : t = tabId
      · simp [ht]
      · simpa [ht] using h1
    | true =>
      simp only [if_true] at hp ⊢
      obtain ⟨h1, h2⟩ := hInv t j hp
      refine ⟨?_, h2⟩
      by_cases ht : t = tabId
      · simp [ht]
      · simpa [ht] using h1

theorem pendingInv_onTabActivated (st : MState) (tabId : Int) (now : Int)
    (hInv : PendingInv st) : PendingInv (onTabActivated st tabId now) := by
  intro t j hp
  exact hInv t j hp

theorem pendingInv_bootstrapTab (st : MState) (tabId : Int) (lastAccessed : Option Int)
    (active : Bool) (now : Int) (hInv : PendingInv st) :
    PendingInv (bootstrapTab st tabId lastAccessed active now) := by
  intro t j hp
  obtain ⟨h1, h2⟩ := hInv t j hp
  refine ⟨?_, h2⟩
  unfold bootstrapTab
  by_cases ht : t = tabId
  · simp [ht]
  · simpa [ht] using h1

theorem pendingInv_onTabRemoved (st : MState) (tabId : Int)
    (hInv : PendingInv st) : PendingInv (onTabRemoved st tabId) := by
  intro t j hp
  unfold onTabRemoved at hp ⊢
  rw [tabCreationTimes_unregisterRedirectInfo, infos_unregisterRedirectInfo]
  by_cases ht : t = tabId
  · subst ht
    have hnone := pending_unregisterRedirectInfo_self_none _ _ _ hp
    have hmono := pending_unregisterRedirectInfo_mono _ _ _ _ hp
    obtain ⟨-, h2⟩ := hInv t j hmono
    have hnone' : st.infos j = none := hnone
    rw [hnone'] at h2
    cases h2
  · have hmono := pending_unregisterRedirectInfo_mono _ _ _ _ hp
    obtain ⟨h1, h2⟩ := hInv t j hmono
    exact ⟨by simpa [ht] using h1, h2⟩

/-- What the interception handler can do to the state: nothing, or (when the
tab's creation time is on record) arm the tab. -/
theorem onBeforeRequest_state_shape (st : MState) (d : Details) (ct : Option Tab) :
    (onBeforeRequest st d ct).1 = st ∨
      ((st.tabCreationTimes d.tabId).isSome = true ∧
       (onBeforeRequest st d ct).1 = registerRedirectInfo st d.tabId d.url) := by
  unfold onBeforeRequest
  split
  · exact Or.inl rfl
  split
  · exact Or.inl rfl
  split
  · exact Or.inl rfl
  split
  · exact Or.inl rfl
  split
  · exact Or.inl rfl
  split
  · exact Or.inl rfl
  split
  · exact Or.inl rfl
  split
  · rename_i hc
    exact Or.inr ⟨hc, rfl⟩
  · exact Or.inl rfl

theorem pendingInv_step (st : MState) (e : Event) (hInv : PendingInv st) :
    PendingInv (step st e) := by
  cases e with
  | tabCreated tabId active now => exact pendingInv_onTabCreated st tabId active now hInv
  | tabActivated tabId now => exact pendingInv_onTabActivated st tabId now hInv
  | tabRemoved tabId => exact pendingInv_onTabRemoved st tabId hInv
  | bootstrapTab tabId lastAccessed active now =>
    exact pendingInv_bootstrapTab st tabId lastAccessed active now hInv
  | beforeRequest d ct =>
    show PendingInv (onBeforeRequest st d ct).1
    rcases onBeforeRequest_state_shape st d ct with h | ⟨hc, h⟩
    · rw [h]; exact hInv
    · rw [h]; exact pendingInv_registerRedirectInfo st d.tabId d.url hInv hc
  | headersReceived iid ev => exact pendingInv_onHeadersReceived st iid ev hInv
  | responseStarted iid => exact pendingInv_onResponseStarted st iid hInv
  | errorOccurred iid url => exact pendingInv_onErrorOccurred st iid url hInv
  | prefsChanged newValue => exact fun t j hp => hInv t j hp

theorem reachable_pendingInv (st : MState) (h : Reachable st) : PendingInv st := by
  induction h with
  | init =>
    intro t j hp
    exact absurd hp (by simp [initialState])
  | step st e _ ih => exact pendingInv_step st e ih

/-!
## The claims
-/

/-- C8: for every domain-list text and hostname, the hostname is excluded by
the built suppression index exactly when some whitespace-separated pattern of
the text equals the hostname or is a proper dot-boundary suffix of it; so an
inserted pattern `P` excludes `P` and every `x.P`, and no hostname without
such a suffix is excluded. -/
theorem C8_excluded_iff_suffix_pattern (text hostname : List Char) :
    isExcluded (doParsePrefs text) hostname = true ↔
      ∃ p ∈ tokens text, p = hostname ∨ ('.' :: p) <:+ hostname :=
  isExcluded_doParsePrefs text hostname

/-- C9: with an empty suppression index, `shouldRedirectToHttps` rejects
`http://localhost/` (no dot), `http://192.168.1.1/` (IPv4 literal),
`http://[::1]/` (IPv6 literal), `http://site.test/` (reserved test TLD) and
`http://nodomain/` (no dot), and approves `http://example.com/`. -/
theorem C9_shouldRedirect_concretes :
    shouldRedirectToHttps Trie.empty "http://localhost/" = false
  ∧ shouldRedirectToHttps Trie.empty "http://192.168.1.1/" = false
  ∧ shouldRedirectToHttps Trie.empty "http://[::1]/" = false
  ∧ shouldRedirectToHttps Trie.empty "http://site.test/" = false
  ∧ shouldRedirectToHttps Trie.empty "http://nodomain/" = false
  ∧ shouldRedirectToHttps Trie.empty "http://example.com/" = true := by
  refine ⟨by decide, by decide, by decide, by decide, by decide, by decide⟩

/-- C1 (the code against the claim): instance 0 is armed for tab 1 and its
header event reports a 302 carrying request id 5, yet the instance records
`undefined` — the listener destructures the non-existent `requestedId`
property instead of `requestId` — and a later interception on tab 1 carrying
the different request id 7 is still vetoed by the retried-request check
(every request's destructured `requestedId` is the same `undefined`). -/
theorem C1_requestId_never_compared :
    stArmed.tabPendingRedirectInfos 1 = some 0
  ∧ (stRedirObserved.infos 0).map RedirectInfo.redirectedRequestId = some JSId.undefined
  ∧ (stRedirObserved.infos 0).map RedirectInfo.redirectedRequestId ≠ some (JSId.id 5)
  ∧ (onBeforeRequest stRedirObserved
      { tabId := 1, url := "http://example.com/", requestId := 7, originUrl := none
        timeStamp := 2000 } (some tabRobots)).2 = none := by
  refine ⟨by decide, by decide, by decide, by decide⟩

/-- C4 counterexample: tab 1 is created as `about:blank` and activated at
time 0, with both times in the ledger; the originless plaintext request to
`http://example.com/` arriving at 500 ms is *not* upgraded — the
restored-session check vetoes it, because under 1 second has passed since
the tab's last activation. -/
theorem C4_counterexample_500ms_not_upgraded :
    (onBeforeRequest stTab1
      { tabId := 1, url := "http://example.com/", requestId := 3, originUrl := none
        timeStamp := 500 } (some tabBlank)).2 = none := by
  decide

/-- C4 as amended: at 500 ms the decision is "do not upgrade"
(restored-session check); at 1500 ms it is "upgrade": the answer is the
upgraded `https://example.com/`, and a PendingRedirectInfo is armed for
tab 1 recording the *plaintext* requested URL `http://example.com/`. -/
theorem C4_amended_timings_and_armed_url :
    (onBeforeRequest stTab1
      { tabId := 1, url := "http://example.com/", requestId := 3, originUrl := none
        timeStamp := 500 } (some tabBlank)).2 = none
  ∧ (onBeforeRequest stTab1
      { tabId := 1, url := "http://example.com/", requestId := 3, originUrl := none
        timeStamp := 1500 } (some tabBlank)).2 = some "https://example.com/"
  ∧ ((onBeforeRequest stTab1
      { tabId := 1, url := "http://example.com/", requestId := 3, originUrl := none
        timeStamp := 1500 } (some tabBlank)).1.tabPendingRedirectInfos 1) = some 0
  ∧ ((onBeforeRequest stTab1
      { tabId := 1, url := "http://example.com/", requestId := 3, originUrl := none
        timeStamp := 1500 } (some tabBlank)).1.infos 0).map RedirectInfo.url =
      some "http://example.com/" := by
  refine ⟨by decide, by decide, by decide, by decide⟩

/-- C5 counterexample: `isDerivedURL("https://a.com/", "http://a.com/")`
returns `true`, not `false`: the same-hostname rule (source line 248) fires
before the scheme check (source line 264). -/
theorem C5_counterexample_same_host_is_derived :
    isDerivedURL "https://a.com/" "http://a.com/" = true := by
  decide

/-- C5 as amended: `isDerivedURL("https://a.com/", "http://a.com/")` is
`true` (the same-hostname rule takes precedence); the never-downgrade rule
applies only across hostnames: whenever the two URLs parse with *different*
hostnames and the current URL's scheme is the encrypted `https:`, the
requested URL is judged not derived. -/
theorem C5_amended_https_check_after_host_check :
    isDerivedURL "https://a.com/" "http://a.com/" = true
  ∧ (∀ (scur sreq : String) (cur req : URLRec),
      "http".toList.isPrefixOf scur.toList = true →
      parseURL scur = some cur → parseURL sreq = some req →
      req.hostname ≠ cur.hostname → cur.protocol = "https:" →
      isDerivedURL scur sreq = false) := by
  refine ⟨by decide, ?_⟩
  intro scur sreq cur req hpre hc hr hh hs
  have hne : scur ≠ sreq := by
    intro h
    rw [h, hr] at hc
    exact hh (congrArg URLRec.hostname (Option.some.inj hc))
  unfold isDerivedURL
  rw [if_neg hne, if_neg (not_not_intro hpre), hc, hr]
  show (if req.hostname = cur.hostname then true
      else if cur.protocol = "https:" then false
      else if (req.pathname.length > 1 ∨ req.search.length > 2 ∨ req.hash.length > 2)
          ∧ req.pathname = cur.pathname ∧ req.search = cur.search ∧ req.hash = cur.hash
        then true else false) = false
  rw [if_neg hh, if_pos hs]

/-- C6 (the code against the claim): tab 1 was created inactive at time 0
(creation recorded, activation unknown), its current URL is the
`about:blank` placeholder last accessed at 0, and the request arrives at
500 ms.  The source's fallback test reads `tabId === undefined`, which never
holds for the numeric tab id, so no fallback to `lastAccessed` happens: the
activation subtraction is `NaN`, the under-1-second check fails, and the
request is upgraded — while the spec's intended semantics (fall back to
`lastAccessed = 0`) would veto it as a restored session. -/
theorem C6_activation_fallback_is_dead :
    stInactiveTab.tabActivatedTimes 1 = none
  ∧ aboutBlankVeto stInactiveTab
      { tabId := 1, url := "http://example.com/", requestId := 2, originUrl := none
        timeStamp := 500 } tabBlank = false
  ∧ aboutBlankVetoIntended stInactiveTab
      { tabId := 1, url := "http://example.com/", requestId := 2, originUrl := none
        timeStamp := 500 } tabBlank = true
  ∧ (onBeforeRequest stInactiveTab
      { tabId := 1, url := "http://example.com/", requestId := 2, originUrl := none
        timeStamp := 500 } (some tabBlank)).2 = some "https://example.com/" := by
  refine ⟨by decide, by decide, by decide, by decide⟩

/-- C7 counterexample: the current and requested URLs reach the final stage
of the heuristic (distinct, parseable, plain-`http:` current URL, different
hostnames) with a *trivial* path `"/"` (length 1, not > 1) and empty query,
yet the non-trivial fragment `"#ab"` alone makes the result "derived" — the
source requires only one of the three components to be non-trivial, not
each. -/
theorem C7_counterexample_single_nontrivial_part :
    isDerivedURL "http://a.com/#ab" "http://b.com/#ab" = true
  ∧ parseURL "http://b.com/#ab" =
      some { protocol := "http:", hostname := "b.com", pathname := "/"
             search := "", hash := "#ab" } := by
  refine ⟨by decide, by decide⟩

/-- C7 as amended: for current and requested URLs reaching the final stage
of the derived-URL heuristic, the result is "derived" exactly when *at least
one* of path, query, fragment is non-trivial (path length > 1, query
length > 2, or fragment length > 2) and all three match exactly. -/
theorem C7_amended_final_stage_iff (scur sreq : String) (cur req : URLRec)
    (hne : scur ≠ sreq)
    (hpre : "http".toList.isPrefixOf scur.toList = true)
    (hc : parseURL scur = some cur) (hr : parseURL sreq = some req)
    (hh : req.hostname ≠ cur.hostname) (hs : cur.protocol ≠ "https:") :
    isDerivedURL scur sreq = true ↔
      ((req.pathname.length > 1 ∨ req.search.length > 2 ∨ req.hash.length > 2)
        ∧ req.pathname = cur.pathname ∧ req.search = cur.search
        ∧ req.hash = cur.hash) := by
  unfold isDerivedURL
  rw [if_neg hne, if_neg (not_not_intro hpre), hc, hr]
  show (if req.hostname = cur.hostname then true
      else if cur.protocol = "https:" then false
      else if (req.pathname.length > 1 ∨ req.search.length > 2 ∨ req.hash.length > 2)
          ∧ req.pathname = cur.pathname ∧ req.search = cur.search ∧ req.hash = cur.hash
        then true else false) = true ↔ _
  rw [if_neg hh, if_neg hs]
  by_cases hfin : (req.pathname.length > 1 ∨ req.search.length > 2 ∨ req.hash.length > 2)
      ∧ req.pathname = cur.pathname ∧ req.search = cur.search ∧ req.hash = cur.hash
  · rw [if_pos hfin]
    simpa using hfin
  · rw [if_neg hfin]
    simpa using hfin

/-- Witness for `C7_amended_final_stage_iff`: concrete URLs differing only
in the hostname with non-trivial matching path, query and fragment are
judged derived. -/
theorem C7_amended_final_stage_iff_witness :
    isDerivedURL "http://a.com/p?q=1#zz" "http://b.com/p?q=1#zz" = true :=
  (C7_amended_final_stage_iff "http://a.com/p?q=1#zz" "http://b.com/p?q=1#zz"
    { protocol := "http:", hostname := "a.com", pathname := "/p", search := "?q=1"
      hash := "#zz" }
    { protocol := "http:", hostname := "b.com", pathname := "/p", search := "?q=1"
      hash := "#zz" }
    (by decide) (by decide) (by decide) (by decide) (by decide) (by decide)).mpr
    (by refine ⟨Or.inl (by decide), rfl, rfl, rfl⟩)

/-- C2 counterexample: instance 0 for tab 1 was superseded by instance 1;
a stale header event with the non-redirect status 200 is then dispatched to
instance 0.  Contrary to the claim, the stale event is not ignored: the
stale closure's `unregister` runs before the identity guard and deletes the
tab's *current* registry entry (instance 1's own listeners stay attached). -/
theorem C2_counterexample_stale_200_clears_entry :
    stTwoArmed.tabPendingRedirectInfos 1 = some 1
  ∧ (onHeadersReceived stTwoArmed 0 { requestId := 9, statusCode := 200
      }).tabPendingRedirectInfos 1 = none
  ∧ (1 : Nat) ∈ (onHeadersReceived stTwoArmed 0 { requestId := 9, statusCode := 200
      }).hrListeners
  ∧ (1 : Nat) ∈ (onHeadersReceived stTwoArmed 0 { requestId := 9, statusCode := 200
      }).errListeners := by
  refine ⟨by decide, by decide, by decide, by decide⟩

/-- C2 as amended: the identity guard protects only the redirect branch.  A
stale header event (the observing instance is not the tab's current one)
with a *redirect* status leaves the state entirely unchanged; with a
*non-redirect* status it runs the stale instance's `unregister`, removing
that instance's listeners and — unconditionally — the tab's current registry
entry. -/
theorem C2_amended_guard_only_on_redirect_branch :
    (∀ (st : MState) (iid : Nat) (info : RedirectInfo) (ev : HeaderDetails),
      st.infos iid = some info →
      isRedirectStatusCode ev.statusCode = true →
      st.tabPendingRedirectInfos info.tabId ≠ some iid →
      onHeadersReceived st iid ev = st)
  ∧ (∀ (st : MState) (iid : Nat) (info : RedirectInfo) (ev : HeaderDetails),
      st.infos iid = some info →
      isRedirectStatusCode ev.statusCode = false →
      onHeadersReceived st iid ev = unregister st info) := by
  constructor
  · intro st iid info ev h1 h2 h3
    unfold onHeadersReceived
    rw [h1]
    simp only [h2, not_true_eq_false, if_false, if_pos h3]
  · intro st iid info ev h1 h2
    unfold onHeadersReceived
    rw [h1]
    simp only [h2]
    rw [if_pos (by simp)]

/-- C3 counterexample: arming tab 1 for the plaintext `http://example.com/`
stores that plaintext URL on the instance, not the upgraded
`https://example.com/`; an error event for `https://example.com/` does not
match the instance's exact-URL error filter, so nothing settles and the
registry entry stays. -/
theorem C3_counterexample_https_error_does_not_settle :
    (stArmed.infos 0).map RedirectInfo.url = some "http://example.com/"
  ∧ (stArmed.infos 0).map RedirectInfo.url ≠ some "https://example.com/"
  ∧ onErrorOccurred stArmed 0 "https://example.com/" = stArmed
  ∧ (stArmed.tabPendingRedirectInfos 1).isSome = true := by
  refine ⟨by decide, by decide, rfl, by decide⟩

/-- C3 as amended: arming records the originally requested *plaintext* URL;
a request-error event matching that recorded plaintext URL settles the
instance — its three subscriptions are detached and the registry entry is
removed — after which a later distinct upgrade for the same tab is armed
fresh without conflict.  The freshness hypotheses say the allocation id is
new, which every state built by the handlers satisfies. -/
theorem C3_amended_error_on_plaintext_url_settles (st : MState) (tabId : Int)
    (url url2 : String)
    (h1 : st.nextIid ∉ st.hrListeners) (h2 : st.nextIid ∉ st.rsListeners)
    (h3 : st.nextIid ∉ st.errListeners) :
    (registerRedirectInfo st tabId url).infos st.nextIid =
      some { iid := st.nextIid, tabId := tabId, url := url
             redirectedRequestId := JSId.null }
  ∧ (registerRedirectInfo st tabId url).tabPendingRedirectInfos tabId = some st.nextIid
  ∧ (onErrorOccurred (registerRedirectInfo st tabId url) st.nextIid
      url).tabPendingRedirectInfos tabId = none
  ∧ st.nextIid ∉ (onErrorOccurred (registerRedirectInfo st tabId url) st.nextIid
      url).hrListeners
  ∧ st.nextIid ∉ (onErrorOccurred (registerRedirectInfo st tabId url) st.nextIid
      url).rsListeners
  ∧ st.nextIid ∉ (onErrorOccurred (registerRedirectInfo st tabId url) st.nextIid
      url).errListeners
  ∧ (registerRedirectInfo (onErrorOccurred (registerRedirectInfo st tabId url)
      st.nextIid url) tabId url2).tabPendingRedirectInfos tabId =
      some (onErrorOccurred (registerRedirectInfo st tabId url) st.nextIid url).nextIid
  ∧ (registerRedirectInfo (onErrorOccurred (registerRedirectInfo st tabId url)
      st.nextIid url) tabId url2).infos
      (onErrorOccurred (registerRedirectInfo st tabId url) st.nextIid url).nextIid =
      some { iid := (onErrorOccurred (registerRedirectInfo st tabId url)
               st.nextIid url).nextIid
             tabId := tabId, url := url2, redirectedRequestId := JSId.null } := by
  have hFinfos : (registerRedirectInfo st tabId url).infos st.nextIid =
      some { iid := st.nextIid, tabId := tabId, url := url
             redirectedRequestId := JSId.null } := by
    rw [infos_registerRedirectInfo]
    simp
  obtain ⟨Lh, hLh, hLhsub⟩ := hrListeners_registerRedirectInfo st tabId url
  obtain ⟨Le, hLe, hLesub⟩ := errListeners_registerRedirectInfo st tabId url
  have hrs : (registerRedirectInfo st tabId url).rsListeners ⊆ st.rsListeners :=
    rsListeners_registerRedirectInfo_subset st tabId url
  have hstep : onErrorOccurred (registerRedirectInfo st tabId url) st.nextIid url =
      unregister (registerRedirectInfo st tabId url)
        { iid := st.nextIid, tabId := tabId, url := url
          redirectedRequestId := JSId.null } := by
    unfold onErrorOccurred
    rw [hFinfos]
    dsimp only
    rw [if_pos ⟨by rw [hLe]; exact List.mem_cons_self _ _, rfl⟩]
  refine ⟨hFinfos, pending_registerRedirectInfo_self st tabId url, ?_, ?_, ?_, ?_, ?_, ?_⟩
  · rw [hstep]
    simp [unregister]
  · rw [hstep]
    show st.nextIid ∉ (registerRedirectInfo st tabId url).hrListeners.erase st.nextIid
    rw [hLh, List.erase_cons_head]
    exact fun hmem => h1 (hLhsub hmem)
  · rw [hstep]
    show st.nextIid ∉ (registerRedirectInfo st tabId url).rsListeners.erase st.nextIid
    intro hmem
    exact h2 (hrs (List.mem_of_mem_erase hmem))
  · rw [hstep]
    show st.nextIid ∉ (registerRedirectInfo st tabId url).errListeners.erase st.nextIid
    rw [hLe, List.erase_cons_head]
    exact fun hmem => h3 (hLesub hmem)
  · exact pending_registerRedirectInfo_self _ tabId url2
  · rw [infos_registerRedirectInfo]
    simp

/-- Witness for `C3_amended_error_on_plaintext_url_settles`: from the fresh
initial state, arming tab 1 stores the plaintext URL, and an error event on
that URL clears the tab's registry entry. -/
theorem C3_amended_error_on_plaintext_url_settles_witness :
    (registerRedirectInfo initialState 1 "http://example.com/").infos 0 =
      some { iid := 0, tabId := 1, url := "http://example.com/"
             redirectedRequestId := JSId.null }
  ∧ (onErrorOccurred (registerRedirectInfo initialState 1 "http://example.com/") 0
      "http://example.com/").tabPendingRedirectInfos 1 = none := by
  have h := C3_amended_error_on_plaintext_url_settles initialState 1
    "http://example.com/" "http://other.example/"
    (List.not_mem_nil _) (List.not_mem_nil _) (List.not_mem_nil _)
  exact ⟨h.1, h.2.2.1⟩

/-- C10: when the handler approves an upgrade for a tab with no recorded
creation time, it still answers the upgraded `https:` URL but skips both
pending-redirect veto checks and arms nothing — the state, whatever its
registry holds, is returned unchanged; and on every reachable state, every
tab id with a live PendingRedirectInfo also has a recorded creation time. -/
theorem C10_no_creation_no_arming_and_invariant :
    (∀ (st : MState) (d : Details) (ct : Option Tab),
      d.originUrl = none → d.tabId ≠ -1 →
      shouldRedirectToHttps st.domains_nohttps d.url = true →
      (∀ t, ct = some t → t.url ≠ "about:blank" ∧ isDerivedURL t.url d.url = false) →
      st.tabCreationTimes d.tabId = none →
      onBeforeRequest st d ct = (st, some (httpsUrl d.url)))
  ∧ (∀ st : MState, Reachable st → ∀ t : Int,
      (st.tabPendingRedirectInfos t).isSome = true →
      (st.tabCreationTimes t).isSome = true) := by
  constructor
  · intro st d ct h1 h2 h3 h4 h5
    unfold onBeforeRequest
    rw [if_neg (by simp [h1]), if_neg h2, if_neg (not_not_intro h3)]
    cases ct with
    | none =>
      rw [if_neg (by simp), if_neg (by simp), if_neg (by simp [h5]),
        if_neg (by simp [h5]), if_neg (by simp [h5])]
    | some t =>
      obtain ⟨hurl, hder⟩ := h4 t rfl
      rw [if_neg (by simp [hurl]), if_neg (by simp [hder]), if_neg (by simp [h5]),
        if_neg (by simp [h5]), if_neg (by simp [h5])]
  · intro st hr t hp
    rw [Option.isSome_iff_exists] at hp
    obtain ⟨j, hj⟩ := hp
    exact (reachable_pendingInv st hr t j hj).1

end HttpsByDefault
